import Mathlib

/-!
Shallow embedding of the ExpenseAndTimeTracker tool server (src/final/main.py).

The SQLite database is modelled as a pure state `DB`: three tables as lists of
rows in insertion order, together with the AUTOINCREMENT counter of each table.
Each tool handler becomes a Lean function; handlers that only SELECT take the
state and return a result, handlers that INSERT return the result paired with
the updated state.  SQLite compares TEXT columns with the BINARY collation
(byte-wise lexicographic order on the UTF-8 encoding, which coincides with
lexicographic order on code points); we embed that comparison as a structural
recursion `lexLt` on the character list of a `String`.  REAL columns (amounts)
are modelled as `ℚ`, INTEGER columns as `Int`/`Nat`, and Python's
`round(x, n)` as rational rounding to `n` decimal places.
-/

/-- Lexicographic strict order on character lists, comparing code points;
this is SQLite's BINARY collation used for `date BETWEEN ? AND ?` and
`ORDER BY` on TEXT columns. -/
def lexLt : List Char → List Char → Bool
  | _, [] => false
  | [], _ :: _ => true
  | a :: as, b :: bs =>
    if a.toNat < b.toNat then true
    else if b.toNat < a.toNat then false
    else lexLt as bs

/-- Strict order on date strings (BINARY collation). -/
def dateLt (a b : String) : Bool := lexLt a.data b.data

/-- Reflexive order on date strings: `a ≤ b` iff not `b < a`. -/
def dateLe (a b : String) : Bool := !(lexLt b.data a.data)

/-- Python truthiness of an optional string argument: `None` and `""` are
falsy, every other string is truthy.  The handlers test `if category:` /
`if activity:` before appending the extra `AND` filter. -/
def truthy : Option String → Bool
  | none => false
  | some s => !(s == "")

/-- Value of an optional string argument, defaulting to the empty string. -/
def optVal : Option String → String
  | none => ""
  | some s => s

/-- Rounding a rational to one decimal place, modelling Python `round(x, 1)`. -/
def round1 (q : ℚ) : ℚ := (round (q * 10) : ℤ) / 10

/-- Rounding a rational to two decimal places, modelling Python `round(x, 2)`. -/
def round2 (q : ℚ) : ℚ := (round (q * 100) : ℤ) / 100

/-- Row of the `expenses` table. -/
structure ExpenseRow where
  id : Nat
  date : String
  amount : ℚ
  category : String
  subcategory : String
  note : String
deriving DecidableEq

/-- Row of the `time_entries` table.  `duration_minutes` is an SQLite INTEGER
(no sign constraint), `start_time` and `end_time` are nullable TEXT. -/
structure TimeRow where
  id : Nat
  date : String
  activity : String
  duration_minutes : Int
  start_time : Option String
  end_time : Option String
  note : String
deriving DecidableEq

/-- Row of the `activity_categories` table (`name` is UNIQUE). -/
structure ActivityCategory where
  id : Nat
  name : String
  color : String
deriving DecidableEq

/-- The whole database: each table as its list of rows in insertion order,
plus the next AUTOINCREMENT id of each table (AUTOINCREMENT guarantees that
ids are strictly increasing and never reused). -/
structure DB where
  expenses : List ExpenseRow
  nextExpenseId : Nat
  timeEntries : List TimeRow
  nextTimeId : Nat
  categories : List ActivityCategory
  nextCatId : Nat
deriving DecidableEq

/-- The nine default activity categories seeded by `init_db`. -/
def defaultActivities : List (String × String) :=
  [("Study", "#10b981"), ("Work", "#3b82f6"), ("Game", "#8b5cf6"),
   ("Exercise", "#f59e0b"), ("Reading", "#ec4899"), ("Coding", "#06b6d4"),
   ("Sleep", "#6366f1"), ("Social", "#f97316"), ("Other", "#6b7280")]

/-- The `init_db` startup step: tables are created if absent (the `DB` state
always carries all three tables, so creation itself is the identity), and the
nine default activity categories are inserted in one batch iff the
`activity_categories` table is empty. -/
def initDb (db : DB) : DB :=
  if db.categories.isEmpty then
    { db with
      categories := db.categories ++
        defaultActivities.enum.map
          (fun p => ⟨db.nextCatId + p.1, p.2.1, p.2.2⟩),
      nextCatId := db.nextCatId + defaultActivities.length }
  else db

/-- A freshly created database file: all tables empty, AUTOINCREMENT at 1. -/
def emptyDB : DB := ⟨[], 1, [], 1, [], 1⟩

/-- The state after process start (`init_db()` runs at import time). -/
def initState : DB := initDb emptyDB

/-- Result of a successful INSERT handler: `{status, id, message}`. -/
structure InsertResult where
  status : String
  id : Nat
  message : String
deriving DecidableEq

/-- Result of `add_activity_category`: `{status, message}`. -/
structure StatusResult where
  status : String
  message : String
deriving DecidableEq

/-- The `add_expense` tool: INSERT one row, return `lastrowid`. -/
def add_expense (date : String) (amount : ℚ) (category : String)
    (subcategory : String := "") (note : String := "") (db : DB) :
    InsertResult × DB :=
  (⟨"success", db.nextExpenseId, "Expense added successfully"⟩,
   { db with
     expenses := db.expenses ++
       [⟨db.nextExpenseId, date, amount, category, subcategory, note⟩],
     nextExpenseId := db.nextExpenseId + 1 })

/-- SQL ordering `ORDER BY date DESC, id DESC` as a "may come first" relation:
`a` may precede `b` iff `b.date < a.date`, or the dates are equal and
`b.id ≤ a.id`. -/
def expOrd (a b : ExpenseRow) : Prop :=
  dateLt b.date a.date = true ∨ (b.date = a.date ∧ b.id ≤ a.id)

instance : DecidableRel expOrd := fun a b => by
  unfold expOrd; infer_instance

/-- The `list_expenses` tool: SELECT rows with `date BETWEEN ? AND ?`,
`ORDER BY date DESC, id DESC`. -/
def list_expenses (start_date end_date : String) (db : DB) :
    List ExpenseRow :=
  List.insertionSort expOrd
    (db.expenses.filter
      (fun r => dateLe start_date r.date && dateLe r.date end_date))

/-- One output group of `summarize_expenses`. -/
structure ExpenseGroup where
  category : String
  total_amount : ℚ
  count : Nat
deriving DecidableEq

/-- Ordering `ORDER BY total_amount DESC` on expense groups. -/
def expGroupOrd (a b : ExpenseGroup) : Prop :=
  b.total_amount ≤ a.total_amount

instance : DecidableRel expGroupOrd := fun a b => by
  unfold expGroupOrd; infer_instance

/-- The WHERE clause of `summarize_expenses`: the date range plus, when the
optional `category` argument is truthy, `AND category = ?`. -/
def expFilter (start_date end_date : String) (cat : Option String)
    (r : ExpenseRow) : Bool :=
  dateLe start_date r.date && dateLe r.date end_date &&
    (if truthy cat then r.category == optVal cat else true)

/-- The `summarize_expenses` tool: filter, GROUP BY category computing
`SUM(amount)` and `COUNT(*)`, then `ORDER BY total_amount DESC`. -/
def summarize_expenses (start_date end_date : String)
    (category : Option String := none) (db : DB) : List ExpenseGroup :=
  let rows := db.expenses.filter (expFilter start_date end_date category)
  let keys := (rows.map (fun r => r.category)).dedup
  List.insertionSort expGroupOrd
    (keys.map (fun c =>
      ⟨c, ((rows.filter (fun r => r.category == c)).map
             (fun r => r.amount)).sum,
       (rows.filter (fun r => r.category == c)).length⟩))

/-- The `add_time_entry` tool: INSERT one row, return `lastrowid`. -/
def add_time_entry (date activity : String) (duration_minutes : Int)
    (start_time : Option String := none) (end_time : Option String := none)
    (note : String := "") (db : DB) : InsertResult × DB :=
  (⟨"success", db.nextTimeId,
    "Time entry added: " ++ toString duration_minutes ++ " minutes on " ++
      activity⟩,
   { db with
     timeEntries := db.timeEntries ++
       [⟨db.nextTimeId, date, activity, duration_minutes, start_time,
         end_time, note⟩],
     nextTimeId := db.nextTimeId + 1 })

/-- SQLite comparison of a nullable TEXT column: NULL sorts before any
string. -/
def optLt : Option String → Option String → Bool
  | _, none => false
  | none, some _ => true
  | some a, some b => lexLt a.data b.data

/-- Ordering `ORDER BY date DESC, start_time DESC` on time entries (NULL
start times come last within a date, as NULL is smallest in SQLite). -/
def timeOrd (a b : TimeRow) : Prop :=
  dateLt b.date a.date = true ∨
    (b.date = a.date ∧ optLt a.start_time b.start_time = false)

instance : DecidableRel timeOrd := fun a b => by
  unfold timeOrd; infer_instance

/-- The WHERE clause of the time-entry tools: date range plus, when the
optional `activity` argument is truthy, `AND activity = ?`. -/
def timeFilter (start_date end_date : String) (act : Option String)
    (r : TimeRow) : Bool :=
  dateLe start_date r.date && dateLe r.date end_date &&
    (if truthy act then r.activity == optVal act else true)

/-- One output row of `list_time_entries`: all columns plus the derived
`duration_hours`. -/
structure TimeRowOut where
  id : Nat
  date : String
  activity : String
  duration_minutes : Int
  start_time : Option String
  end_time : Option String
  note : String
  duration_hours : ℚ
deriving DecidableEq

/-- The `list_time_entries` tool: filter, `ORDER BY date DESC,
start_time DESC`, then augment each row with
`duration_hours = round(duration_minutes / 60, 2)`. -/
def list_time_entries (start_date end_date : String)
    (activity : Option String := none) (db : DB) : List TimeRowOut :=
  (List.insertionSort timeOrd
    (db.timeEntries.filter (timeFilter start_date end_date activity))).map
    (fun r =>
      ⟨r.id, r.date, r.activity, r.duration_minutes, r.start_time,
       r.end_time, r.note, round2 ((r.duration_minutes : ℚ) / 60)⟩)

/-- One row of the GROUP BY aggregation inside `summarize_time`. -/
structure TimeAgg where
  activity : String
  total_minutes : Int
  entry_count : Nat
  avg_minutes : ℚ
deriving DecidableEq

/-- Ordering `ORDER BY total_minutes DESC` on time aggregates. -/
def timeAggOrd (a b : TimeAgg) : Prop :=
  b.total_minutes ≤ a.total_minutes

instance : DecidableRel timeAggOrd := fun a b => by
  unfold timeAggOrd; infer_instance

/-- One output group of `summarize_time`, after the post-processing loop that
adds `total_hours`, `avg_hours` and `percentage`. -/
structure TimeGroup where
  activity : String
  total_minutes : Int
  entry_count : Nat
  avg_minutes : ℚ
  total_hours : ℚ
  avg_hours : ℚ
  percentage : ℚ
deriving DecidableEq

/-- The GROUP BY stage of `summarize_time`: per activity, `SUM`, `COUNT` and
`AVG` of `duration_minutes`, then `ORDER BY total_minutes DESC`. -/
def summarize_time_groups (start_date end_date : String)
    (act : Option String) (db : DB) : List TimeAgg :=
  let rows := db.timeEntries.filter (timeFilter start_date end_date act)
  let keys := (rows.map (fun r => r.activity)).dedup
  List.insertionSort timeAggOrd
    (keys.map (fun c =>
      let g := rows.filter (fun r => r.activity == c)
      ⟨c, (g.map (fun r => r.duration_minutes)).sum, g.length,
       ((g.map (fun r => r.duration_minutes)).sum : ℚ) / (g.length : ℚ)⟩))

/-- The `summarize_time` tool: aggregate, then the Python loop computing
`total_all = sum(total_minutes)` over the result rows and augmenting each row
with hours and `percentage = round(total_minutes / total_all * 100, 1) if
total_all > 0 else 0`. -/
def summarize_time (start_date end_date : String)
    (activity : Option String := none) (db : DB) : List TimeGroup :=
  let results := summarize_time_groups start_date end_date activity db
  let total_all := (results.map (fun r => r.total_minutes)).sum
  results.map (fun r =>
    ⟨r.activity, r.total_minutes, r.entry_count, r.avg_minutes,
     round2 ((r.total_minutes : ℚ) / 60), round2 (r.avg_minutes / 60),
     if total_all > 0 then
       round1 ((r.total_minutes : ℚ) / (total_all : ℚ) * 100)
     else 0⟩)

/-- Per-category expense line of `get_daily_summary`. -/
structure DailyExpense where
  category : String
  total : ℚ
deriving DecidableEq

/-- Per-activity time line of `get_daily_summary`. -/
structure DailyTime where
  activity : String
  minutes : Int
  hours : ℚ
deriving DecidableEq

/-- Result of `get_daily_summary`. -/
structure DailySummary where
  date : String
  expenses : List DailyExpense
  total_expense : ℚ
  time_entries : List DailyTime
  total_hours : ℚ
deriving DecidableEq

/-- The `get_daily_summary` tool: for one exact date, expenses grouped by
category and time grouped by activity, plus overall totals. -/
def get_daily_summary (date : String) (db : DB) : DailySummary :=
  let erows := db.expenses.filter (fun r => r.date == date)
  let ekeys := (erows.map (fun r => r.category)).dedup
  let expenses := ekeys.map (fun c =>
    DailyExpense.mk c
      (((erows.filter (fun r => r.category == c)).map
        (fun r => r.amount)).sum))
  let trows := db.timeEntries.filter (fun r => r.date == date)
  let tkeys := (trows.map (fun r => r.activity)).dedup
  let times := tkeys.map (fun c =>
    let m := ((trows.filter (fun r => r.activity == c)).map
      (fun r => r.duration_minutes)).sum
    DailyTime.mk c m (round2 ((m : ℚ) / 60)))
  ⟨date, expenses, (expenses.map (fun e => e.total)).sum, times,
   (times.map (fun t => t.hours)).sum⟩

/-- Ordering `ORDER BY name` on activity categories. -/
def catNameOrd (a b : ActivityCategory) : Prop :=
  dateLe a.name b.name = true

instance : DecidableRel catNameOrd := fun a b => by
  unfold catNameOrd; infer_instance

/-- The `list_activities` tool: all categories ordered by name. -/
def list_activities (db : DB) : List (String × String) :=
  (List.insertionSort catNameOrd db.categories).map
    (fun c => (c.name, c.color))

/-- The `add_activity_category` tool: INSERT; a violation of the UNIQUE
constraint on `name` is caught (`sqlite3.IntegrityError`) and turned into a
structured error result, leaving the table unchanged. -/
def add_activity_category (name : String) (color : String := "#3b82f6")
    (db : DB) : StatusResult × DB :=
  if db.categories.any (fun c => c.name == name) then
    (⟨"error", "Activity category \x27" ++ name ++ "\x27 already exists"⟩, db)
  else
    (⟨"success", "Activity category \x27" ++ name ++ "\x27 added"⟩,
     { db with
       categories := db.categories ++ [⟨db.nextCatId, name, color⟩],
       nextCatId := db.nextCatId + 1 })

/-- One tool invocation with its arguments. -/
inductive Op where
  | addExpense (date : String) (amount : ℚ)
      (category subcategory note : String)
  | listExpenses (start_date end_date : String)
  | summarizeExpenses (start_date end_date : String) (cat : Option String)
  | addTimeEntry (date activity : String) (duration_minutes : Int)
      (start_time end_time : Option String) (note : String)
  | listTimeEntries (start_date end_date : String) (act : Option String)
  | summarizeTime (start_date end_date : String) (act : Option String)
  | getDailySummary (date : String)
  | listActivities
  | addActivityCategory (name color : String)

/-- State effect of one tool invocation; SELECT-only tools leave the
database unchanged. -/
def applyOp (op : Op) (db : DB) : DB :=
  match op with
  | .addExpense d a c s n => (add_expense d a c s n db).2
  | .listExpenses _ _ => db
  | .summarizeExpenses _ _ _ => db
  | .addTimeEntry d a m st et n => (add_time_entry d a m st et n db).2
  | .listTimeEntries _ _ _ => db
  | .summarizeTime _ _ _ => db
  | .getDailySummary _ => db
  | .listActivities => db
  | .addActivityCategory n c => (add_activity_category n c db).2

/-- Running a sequence of tool invocations from a state. -/
def run (ops : List Op) (db : DB) : DB :=
  ops.foldl (fun d op => applyOp op d) db

/-! Order theory of the BINARY collation. -/

/-- Nothing is lexicographically below the empty list. -/
theorem lexLt_nil_right : ∀ (l : List Char), lexLt l [] = false := by
  intro l
  cases l <;> rfl

/-- Unfolding of `lexLt` on two nonempty lists. -/
theorem lexLt_cons (a b : Char) (as bs : List Char) :
    lexLt (a :: as) (b :: bs) =
      (if a.toNat < b.toNat then true
       else if b.toNat < a.toNat then false else lexLt as bs) := rfl

/-- The collation order is irreflexive. -/
theorem lexLt_irrefl : ∀ (l : List Char), lexLt l l = false := by
  intro l
  induction l with
  | nil => rfl
  | cons a as ih => rw [lexLt_cons]; simp [ih]

/-- The collation order is transitive. -/
theorem lexLt_trans : ∀ (a b c : List Char),
    lexLt a b = true → lexLt b c = true → lexLt a c = true := by
  intro a
  induction a with
  | nil =>
    intro b c _ h2
    cases c with
    | nil => rw [lexLt_nil_right] at h2; exact absurd h2 (by simp)
    | cons hc tc => rfl
  | cons ha ta ih =>
    intro b c h1 h2
    cases b with
    | nil => rw [lexLt_nil_right] at h1; exact absurd h1 (by simp)
    | cons hb tb =>
      cases c with
      | nil => rw [lexLt_nil_right] at h2; exact absurd h2 (by simp)
      | cons hc tc =>
        rw [lexLt_cons] at h1 h2 ⊢
        rcases Nat.lt_trichotomy ha.toNat hb.toNat with hab | hab | hab
        · rcases Nat.lt_trichotomy hb.toNat hc.toNat with hbc | hbc | hbc
          · have hac : ha.toNat < hc.toNat := Nat.lt_trans hab hbc
            simp [hac]
          · have hac : ha.toNat < hc.toNat := by omega
            simp [hac]
          · rw [if_neg (by omega), if_pos hbc] at h2
            exact absurd h2 (by simp)
        · rw [if_neg (by omega), if_neg (by omega)] at h1
          rcases Nat.lt_trichotomy hb.toNat hc.toNat with hbc | hbc | hbc
          · have hac : ha.toNat < hc.toNat := by omega
            simp [hac]
          · rw [if_neg (by omega), if_neg (by omega)] at h2
            rw [if_neg (by omega), if_neg (by omega)]
            exact ih tb tc h1 h2
          · rw [if_neg (by omega), if_pos hbc] at h2
            exact absurd h2 (by simp)
        · rw [if_neg (by omega), if_pos hab] at h1
          exact absurd h1 (by simp)

/-- Two lists neither of which is below the other are equal. -/
theorem lexLt_conn : ∀ (a b : List Char),
    lexLt a b = false → lexLt b a = false → a = b := by
  intro a
  induction a with
  | nil =>
    intro b h1 _
    cases b with
    | nil => rfl
    | cons hb tb => exact absurd h1 (by simp [lexLt])
  | cons ha ta ih =>
    intro b h1 h2
    cases b with
    | nil => exact absurd h2 (by simp [lexLt])
    | cons hb tb =>
      rw [lexLt_cons] at h1 h2
      rcases Nat.lt_trichotomy ha.toNat hb.toNat with h | h | h
      · rw [if_pos h] at h1
        exact absurd h1 (by simp)
      · rw [if_neg (by omega), if_neg (by omega)] at h1
        rw [if_neg (by omega), if_neg (by omega)] at h2
        have hc : ha = hb := by
          apply Char.ext
          apply UInt32.ext
          simpa [Char.toNat, UInt32.toNat] using h
        rw [hc, ih tb h1 h2]
      · rw [if_pos h] at h2
        exact absurd h2 (by simp)

/-- Reflexivity of `dateLe`. -/
theorem dateLe_refl (a : String) : dateLe a a = true := by
  simp [dateLe, lexLt_irrefl]

/-- If neither date string is strictly below the other, they are equal. -/
theorem dateLt_conn (a b : String) :
    dateLt a b = false → dateLt b a = false → a = b := by
  intro h1 h2
  exact String.ext (lexLt_conn a.data b.data h1 h2)

/-- Transitivity of the strict order on date strings. -/
theorem dateLt_trans (a b c : String) :
    dateLt a b = true → dateLt b c = true → dateLt a c = true :=
  lexLt_trans a.data b.data c.data

instance : IsTotal ExpenseRow expOrd where
  total a b := by
    unfold expOrd
    cases h1 : dateLt a.date b.date with
    | true => exact Or.inr (Or.inl rfl)
    | false =>
      cases h2 : dateLt b.date a.date with
      | true => exact Or.inl (Or.inl rfl)
      | false =>
        have he : b.date = a.date := dateLt_conn _ _ h2 h1
        rcases Nat.le_total b.id a.id with h | h
        · exact Or.inl (Or.inr ⟨he, h⟩)
        · exact Or.inr (Or.inr ⟨he.symm, h⟩)

instance : IsTrans ExpenseRow expOrd where
  trans a b c h1 h2 := by
    unfold expOrd at h1 h2 ⊢
    rcases h1 with h1 | ⟨h1e, h1i⟩
    · rcases h2 with h2 | ⟨h2e, h2i⟩
      · exact Or.inl (dateLt_trans _ _ _ h2 h1)
      · exact Or.inl (by rw [h2e]; exact h1)
    · rcases h2 with h2 | ⟨h2e, h2i⟩
      · exact Or.inl (by rw [← h1e]; exact h2)
      · exact Or.inr ⟨h2e.trans h1e, Nat.le_trans h2i h1i⟩

instance : IsTotal ExpenseGroup expGroupOrd where
  total a b := by
    unfold expGroupOrd
    exact le_total b.total_amount a.total_amount

instance : IsTrans ExpenseGroup expGroupOrd where
  trans a b c h1 h2 := by
    unfold expGroupOrd at h1 h2 ⊢
    exact le_trans h2 h1

instance : IsTotal TimeAgg timeAggOrd where
  total a b := by
    unfold timeAggOrd
    exact le_total b.total_minutes a.total_minutes

instance : IsTrans TimeAgg timeAggOrd where
  trans a b c h1 h2 := by
    unfold timeAggOrd at h1 h2 ⊢
    exact le_trans h2 h1

/-- Example state of the spec: two time entries (2024-01-01, Study, 60) and
(2024-01-01, Work, 180) inserted into a fresh database. -/
def exDB : DB :=
  (add_time_entry "2024-01-01" "Work" 180 none none ""
    (add_time_entry "2024-01-01" "Study" 60 none none "" initState).2).2

/-- A state holding one time entry with a negative duration, reachable
because `add_time_entry` performs no validation. -/
def negDB : DB :=
  (add_time_entry "2024-01-01" "Study" (-60) none none "" initState).2

/-- Id discipline of AUTOINCREMENT: every stored id is below the table's
next id, and stored ids are strictly increasing in insertion order. -/
def goodIds (db : DB) : Prop :=
  ((∀ r ∈ db.expenses, r.id < db.nextExpenseId) ∧
    (db.expenses.map (fun r => r.id)).Pairwise (· < ·)) ∧
  ((∀ r ∈ db.timeEntries, r.id < db.nextTimeId) ∧
    (db.timeEntries.map (fun r => r.id)).Pairwise (· < ·)) ∧
  ((∀ r ∈ db.categories, r.id < db.nextCatId) ∧
    (db.categories.map (fun r => r.id)).Pairwise (· < ·))

/-! Helper lemmas about the state effect of tool invocations. -/

/-- Every tool invocation leaves the three AUTOINCREMENT counters
nondecreasing. -/
theorem nextIds_le_applyOp (op : Op) (db : DB) :
    db.nextExpenseId ≤ (applyOp op db).nextExpenseId ∧
    db.nextTimeId ≤ (applyOp op db).nextTimeId ∧
    db.nextCatId ≤ (applyOp op db).nextCatId := by
  cases op <;>
    simp only [applyOp, add_expense, add_time_entry, add_activity_category] <;>
    first
    | exact ⟨Nat.le_refl _, Nat.le_refl _, Nat.le_refl _⟩
    | exact ⟨Nat.le_succ _, Nat.le_refl _, Nat.le_refl _⟩
    | exact ⟨Nat.le_refl _, Nat.le_succ _, Nat.le_refl _⟩
    | (split <;>
        first
        | exact ⟨Nat.le_refl _, Nat.le_refl _, Nat.le_refl _⟩
        | exact ⟨Nat.le_refl _, Nat.le_refl _, Nat.le_succ _⟩)

/-- Counter monotonicity extends to any sequence of tool invocations. -/
theorem nextIds_le_run (ops : List Op) (db : DB) :
    db.nextExpenseId ≤ (run ops db).nextExpenseId ∧
    db.nextTimeId ≤ (run ops db).nextTimeId ∧
    db.nextCatId ≤ (run ops db).nextCatId := by
  induction ops generalizing db with
  | nil => exact ⟨Nat.le_refl _, Nat.le_refl _, Nat.le_refl _⟩
  | cons op ops ih =>
    have h1 := nextIds_le_applyOp op db
    have h2 := ih (applyOp op db)
    exact ⟨Nat.le_trans h1.1 h2.1, Nat.le_trans h1.2.1 h2.2.1,
      Nat.le_trans h1.2.2 h2.2.2⟩

/-- The id discipline is preserved by every tool invocation. -/
theorem goodIds_applyOp (op : Op) (db : DB) (h : goodIds db) :
    goodIds (applyOp op db) := by
  obtain ⟨⟨he1, he2⟩, ⟨ht1, ht2⟩, ⟨hc1, hc2⟩⟩ := h
  cases op with
  | addExpense d a c s n =>
    refine ⟨⟨?_, ?_⟩, ⟨ht1, ht2⟩, ⟨hc1, hc2⟩⟩
    · intro r hr
      simp only [applyOp, add_expense, List.mem_append, List.mem_singleton] at hr
      rcases hr with hr | rfl
      · exact Nat.lt_succ_of_lt (he1 r hr)
      · exact Nat.lt_succ_self _
    · simp only [applyOp, add_expense, List.map_append, List.pairwise_append]
      refine ⟨he2, by simp, ?_⟩
      intro a ha b hb
      simp only [List.mem_map] at ha
      simp only [List.map_cons, List.map_nil, List.mem_singleton] at hb
      obtain ⟨r, hr, rfl⟩ := ha
      subst hb
      exact he1 r hr
  | addTimeEntry d a m st et n =>
    refine ⟨⟨he1, he2⟩, ⟨?_, ?_⟩, ⟨hc1, hc2⟩⟩
    · intro r hr
      simp only [applyOp, add_time_entry, List.mem_append,
        List.mem_singleton] at hr
      rcases hr with hr | rfl
      · exact Nat.lt_succ_of_lt (ht1 r hr)
      · exact Nat.lt_succ_self _
    · simp only [applyOp, add_time_entry, List.map_append, List.pairwise_append]
      refine ⟨ht2, by simp, ?_⟩
      intro a ha b hb
      simp only [List.mem_map] at ha
      simp only [List.map_cons, List.map_nil, List.mem_singleton] at hb
      obtain ⟨r, hr, rfl⟩ := ha
      subst hb
      exact ht1 r hr
  | addActivityCategory n c =>
    simp only [applyOp, add_activity_category]
    split
    · exact ⟨⟨he1, he2⟩, ⟨ht1, ht2⟩, ⟨hc1, hc2⟩⟩
    · refine ⟨⟨he1, he2⟩, ⟨ht1, ht2⟩, ⟨?_, ?_⟩⟩
      · intro r hr
        simp only [List.mem_append, List.mem_singleton] at hr
        rcases hr with hr | rfl
        · exact Nat.lt_succ_of_lt (hc1 r hr)
        · exact Nat.lt_succ_self _
      · simp only [List.map_append, List.pairwise_append]
        refine ⟨hc2, by simp, ?_⟩
        intro a ha b hb
        simp only [List.mem_map] at ha
        simp only [List.map_cons, List.map_nil, List.mem_singleton] at hb
        obtain ⟨r, hr, rfl⟩ := ha
        subst hb
        exact hc1 r hr
  | listExpenses s e => exact ⟨⟨he1, he2⟩, ⟨ht1, ht2⟩, ⟨hc1, hc2⟩⟩
  | summarizeExpenses s e c => exact ⟨⟨he1, he2⟩, ⟨ht1, ht2⟩, ⟨hc1, hc2⟩⟩
  | listTimeEntries s e a => exact ⟨⟨he1, he2⟩, ⟨ht1, ht2⟩, ⟨hc1, hc2⟩⟩
  | summarizeTime s e a => exact ⟨⟨he1, he2⟩, ⟨ht1, ht2⟩, ⟨hc1, hc2⟩⟩
  | getDailySummary d => exact ⟨⟨he1, he2⟩, ⟨ht1, ht2⟩, ⟨hc1, hc2⟩⟩
  | listActivities => exact ⟨⟨he1, he2⟩, ⟨ht1, ht2⟩, ⟨hc1, hc2⟩⟩

/-- The id discipline is preserved by any sequence of tool invocations. -/
theorem goodIds_run (ops : List Op) (db : DB) (h : goodIds db) :
    goodIds (run ops db) := by
  induction ops generalizing db with
  | nil => exact h
  | cons op ops ih => exact ih (applyOp op db) (goodIds_applyOp op db h)

/-- The startup state satisfies the id discipline. -/
theorem goodIds_initState : goodIds initState := by
  constructor
  · exact ⟨by simp [initState, initDb, emptyDB], by simp [initState, initDb, emptyDB]⟩
  constructor
  · exact ⟨by simp [initState, initDb, emptyDB], by simp [initState, initDb, emptyDB]⟩
  · exact ⟨by decide, by decide⟩

/-! Claim theorems. -/

/-- C4: storage initialization is idempotent — running the
table-creation-and-seeding step twice from an empty database is the same as
running it once, and leaves exactly nine default activity categories. -/
theorem claim_C4_init_idempotent :
    initDb (initDb emptyDB) = initDb emptyDB ∧
    (initDb (initDb emptyDB)).categories.length = 9 := by
  constructor <;> decide

/-- C3: when a category named `n` already exists, `add_activity_category`
returns a structured error result and leaves the stored categories (hence
their count) unchanged; when no such category exists, it inserts one and
returns success. -/
theorem claim_C3_add_activity_category (n col : String) (db : DB) :
    ((∃ c ∈ db.categories, c.name = n) →
      (add_activity_category n col db).1.status = "error" ∧
      (add_activity_category n col db).1.message =
        "Activity category \x27" ++ n ++ "\x27 already exists" ∧
      (add_activity_category n col db).2 = db) ∧
    ((¬∃ c ∈ db.categories, c.name = n) →
      (add_activity_category n col db).1.status = "success" ∧
      (add_activity_category n col db).2.categories =
        db.categories ++ [⟨db.nextCatId, n, col⟩]) := by
  constructor
  · rintro ⟨c, hc, he⟩
    have hany : db.categories.any (fun c => c.name == n) = true := by
      simp only [List.any_eq_true, beq_iff_eq]
      exact ⟨c, hc, he⟩
    simp [add_activity_category, hany]
  · intro h
    have hany : db.categories.any (fun c => c.name == n) = false := by
      simp only [List.any_eq_false, beq_iff_eq]
      intro c hc he
      exact h ⟨c, hc, he⟩
    simp [add_activity_category, hany]

/-- C3 witness: on the seeded startup state, re-adding "Study" fails and
changes nothing, while adding a fresh name succeeds and appends it. -/
theorem claim_C3_witness :
    ((add_activity_category "Study" "#000000" initState).1.status = "error" ∧
     (add_activity_category "Study" "#000000" initState).1.message =
       "Activity category \x27" ++ "Study" ++ "\x27 already exists" ∧
     (add_activity_category "Study" "#000000" initState).2 = initState) ∧
    ((add_activity_category "Painting" "#000000" initState).1.status =
       "success" ∧
     (add_activity_category "Painting" "#000000" initState).2.categories =
       initState.categories ++ [⟨initState.nextCatId, "Painting", "#000000"⟩]) :=
  ⟨(claim_C3_add_activity_category "Study" "#000000" initState).1 (by decide),
   (claim_C3_add_activity_category "Painting" "#000000" initState).2
     (by decide)⟩

/-- C8 counterexample: `add_time_entry` performs no validation, so an insert
with a negative duration succeeds and a stored `TimeEntry` carries a negative
`duration_minutes`, refuting non-negativity of stored durations. -/
theorem claim_C8_counterexample :
    (add_time_entry "2024-01-01" "Study" (-5) none none "" initState).1.status
      = "success" ∧
    ∃ t ∈ (add_time_entry "2024-01-01" "Study" (-5) none none ""
        initState).2.timeEntries, t.duration_minutes < 0 := by
  constructor
  · rfl
  · exact ⟨⟨1, "2024-01-01", "Study", -5, none, none, ""⟩, by decide, by decide⟩

/-- C8 amended: every successful `add_time_entry` stores `duration_minutes`
verbatim as the integer passed (which may be negative — no sign check is
performed), appending exactly one row. -/
theorem claim_C8_amended_duration_stored_verbatim (d a : String) (m : Int)
    (st et : Option String) (n : String) (db : DB) :
    (add_time_entry d a m st et n db).1.status = "success" ∧
    (add_time_entry d a m st et n db).2.timeEntries =
      db.timeEntries ++ [⟨db.nextTimeId, d, a, m, st, et, n⟩] :=
  ⟨rfl, rfl⟩

/-- C9: no tool invocation updates or deletes an existing expense or
time-entry row — after any tool call the old `expenses` and `time_entries`
tables are unchanged up to rows appended at the end. -/
theorem claim_C9_append_only (op : Op) (db : DB) :
    ∃ t₁ t₂, (applyOp op db).expenses = db.expenses ++ t₁ ∧
      (applyOp op db).timeEntries = db.timeEntries ++ t₂ := by
  cases op with
  | addExpense d a c s n =>
    exact ⟨[⟨db.nextExpenseId, d, a, c, s, n⟩], [], rfl, by simp [applyOp, add_expense]⟩
  | addTimeEntry d a m st et n =>
    exact ⟨[], [⟨db.nextTimeId, d, a, m, st, et, n⟩], by simp [applyOp, add_time_entry], rfl⟩
  | addActivityCategory n c =>
    refine ⟨[], [], ?_, ?_⟩ <;>
      (simp only [applyOp, add_activity_category]; split <;> simp)
  | listExpenses s e => exact ⟨[], [], by simp [applyOp], by simp [applyOp]⟩
  | summarizeExpenses s e c => exact ⟨[], [], by simp [applyOp], by simp [applyOp]⟩
  | listTimeEntries s e a => exact ⟨[], [], by simp [applyOp], by simp [applyOp]⟩
  | summarizeTime s e a => exact ⟨[], [], by simp [applyOp], by simp [applyOp]⟩
  | getDailySummary d => exact ⟨[], [], by simp [applyOp], by simp [applyOp]⟩
  | listActivities => exact ⟨[], [], by simp [applyOp], by simp [applyOp]⟩

/-- C10: passing the empty string as the optional filter is the same as
passing no filter at all, for `summarize_expenses`, `list_time_entries` and
`summarize_time` — the handlers test Python truthiness, and `""` is falsy. -/
theorem claim_C10_empty_string_filter (s e : String) (db : DB) :
    summarize_expenses s e (some "") db = summarize_expenses s e none db ∧
    list_time_entries s e (some "") db = list_time_entries s e none db ∧
    summarize_time s e (some "") db = summarize_time s e none db := by
  have he : expFilter s e (some "") = expFilter s e none := by
    funext r
    simp [expFilter, truthy]
  have htf : timeFilter s e (some "") = timeFilter s e none := by
    funext r
    simp [timeFilter, truthy]
  refine ⟨?_, ?_, ?_⟩ <;>
    simp only [summarize_expenses, list_time_entries, summarize_time,
      summarize_time_groups, he, htf]

/-- C6: inserting an expense and immediately listing its exact date returns
exactly that one row, with the inserted date, amount and category (the
implicit test context: no previously stored row lies in the one-day range,
as in a fresh database). -/
theorem claim_C6_insert_then_list (d : String) (amt : ℚ) (cat sub n : String)
    (db : DB)
    (h : ∀ r ∈ db.expenses,
      ¬(dateLe d r.date = true ∧ dateLe r.date d = true)) :
    list_expenses d d (add_expense d amt cat sub n db).2 =
      [⟨db.nextExpenseId, d, amt, cat, sub, n⟩] := by
  unfold list_expenses add_expense
  rw [List.filter_append]
  have h1 : db.expenses.filter
      (fun r => dateLe d r.date && dateLe r.date d) = [] := by
    rw [List.filter_eq_nil_iff]
    intro r hr
    have hn := h r hr
    cases hd1 : dateLe d r.date <;> cases hd2 : dateLe r.date d <;> simp_all
  rw [h1]
  simp [dateLe_refl, List.insertionSort]

/-- C6 witness: a concrete insert-then-list round trip on the startup state. -/
theorem claim_C6_witness :
    list_expenses "2024-01-01" "2024-01-01"
      (add_expense "2024-01-01" 5 "Food" "" "" initState).2 =
      [⟨initState.nextExpenseId, "2024-01-01", 5, "Food", "", ""⟩] :=
  claim_C6_insert_then_list "2024-01-01" 5 "Food" "" "" initState (by decide)

/-- C7: `list_expenses` returns exactly the stored rows whose date lies in
the inclusive lexical range (as a permutation of the filtered table), ordered
by date descending and, among equal dates, by id descending. -/
theorem claim_C7_list_expenses_range_sorted (s e : String) (db : DB) :
    (list_expenses s e db).Perm
      (db.expenses.filter (fun r => dateLe s r.date && dateLe r.date e)) ∧
    (list_expenses s e db).Pairwise
      (fun a b => dateLt b.date a.date = true ∨
        (b.date = a.date ∧ b.id ≤ a.id)) :=
  ⟨List.perm_insertionSort _ _, List.sorted_insertionSort expOrd _⟩

/-- C5: within one process lifetime, ids returned by successive successful
inserts into the same table are strictly increasing (for the category table,
whose handler returns no id, the assigned ids are), and stored ids are
never reused: in any state reached from startup each table's id column is
strictly increasing in insertion order. -/
theorem claim_C5_ids_strictly_increasing
    (db : DB) (ops : List Op)
    (d1 d2 : String) (a1 a2 : ℚ) (c1 c2 s1 s2 n1 n2 : String)
    (td1 td2 ta1 ta2 : String) (m1 m2 : Int)
    (st1 st2 et1 et2 : Option String) (tn1 tn2 : String)
    (cn1 cc1 : String) :
    ((add_expense d1 a1 c1 s1 n1 db).1.id <
      (add_expense d2 a2 c2 s2 n2
        (run ops (add_expense d1 a1 c1 s1 n1 db).2)).1.id) ∧
    ((add_time_entry td1 ta1 m1 st1 et1 tn1 db).1.id <
      (add_time_entry td2 ta2 m2 st2 et2 tn2
        (run ops (add_time_entry td1 ta1 m1 st1 et1 tn1 db).2)).1.id) ∧
    ((add_activity_category cn1 cc1 db).1.status = "success" →
      db.nextCatId <
        (run ops (add_activity_category cn1 cc1 db).2).nextCatId) ∧
    ((run ops initState).expenses.map (fun r => r.id)).Pairwise (· < ·) ∧
    ((run ops initState).timeEntries.map (fun r => r.id)).Pairwise (· < ·) ∧
    ((run ops initState).categories.map (fun r => r.id)).Pairwise (· < ·) := by
  refine ⟨?_, ?_, ?_, ?_, ?_, ?_⟩
  · have h := (nextIds_le_run ops (add_expense d1 a1 c1 s1 n1 db).2).1
    simp only [add_expense] at h ⊢
    omega
  · have h := (nextIds_le_run ops (add_time_entry td1 ta1 m1 st1 et1 tn1 db).2).2.1
    simp only [add_time_entry] at h ⊢
    omega
  · intro hs
    have h := (nextIds_le_run ops (add_activity_category cn1 cc1 db).2).2.2
    by_cases hany : db.categories.any (fun c => c.name == cn1) = true
    · simp [add_activity_category, hany] at hs
    · simp only [Bool.not_eq_true] at hany
      simp only [add_activity_category, hany, Bool.false_eq_true,
        if_false] at h ⊢
      omega
  · exact ((goodIds_run ops initState goodIds_initState).1).2
  · exact ((goodIds_run ops initState goodIds_initState).2.1).2
  · exact ((goodIds_run ops initState goodIds_initState).2.2).2

/-- C5 witness: two consecutive inserts per table from the startup state. -/
theorem claim_C5_witness :
    ((add_expense "d" 1 "c" "" "" initState).1.id <
      (add_expense "d" 1 "c" "" ""
        (run [] (add_expense "d" 1 "c" "" "" initState).2)).1.id) ∧
    ((add_time_entry "d" "a" 1 none none "" initState).1.id <
      (add_time_entry "d" "a" 1 none none ""
        (run [] (add_time_entry "d" "a" 1 none none "" initState).2)).1.id) ∧
    (initState.nextCatId <
      (run [] (add_activity_category "Painting" "#fff" initState).2).nextCatId) ∧
    ((run [] initState).expenses.map (fun r => r.id)).Pairwise (· < ·) ∧
    ((run [] initState).timeEntries.map (fun r => r.id)).Pairwise (· < ·) ∧
    ((run [] initState).categories.map (fun r => r.id)).Pairwise (· < ·) :=
  have h := claim_C5_ids_strictly_increasing initState [] "d" "d" 1 1
    "c" "c" "" "" "" "" "d" "d" "a" "a" 1 1 none none none none "" ""
    "Painting" "#fff"
  ⟨h.1, h.2.1, h.2.2.1 (by decide), h.2.2.2.1, h.2.2.2.2.1, h.2.2.2.2.2⟩

/-- Composing the summarize filter with a group's category test gives a
single filter over the whole table, in the form used by the specification:
date in range, category equal to the group key, and (when given) category
equal to the filter argument. -/
theorem expFilter_group (s e : String) (cat : Option String) (c : String)
    (db : DB) :
    (db.expenses.filter (expFilter s e cat)).filter
        (fun r => r.category == c) =
      db.expenses.filter (fun r =>
        dateLe s r.date && dateLe r.date e && (r.category == c) &&
          (!truthy cat || (r.category == optVal cat))) := by
  rw [List.filter_filter]
  apply List.filter_congr
  intro r _
  unfold expFilter
  cases htr : truthy cat <;> cases h1 : dateLe s r.date <;>
    cases h2 : dateLe r.date e <;> cases h3 : (r.category == c) <;>
    cases h4 : (r.category == optVal cat) <;> simp [h1, h2, h3, h4]

/-- C2: every group returned by `summarize_expenses` carries
`total_amount` equal to the sum of `amount`, and `count` equal to the number
of rows, over exactly the stored rows with date in the inclusive lexical
range, category equal to the group's category and (when the filter is given)
equal to the filter; groups come in descending order of `total_amount`. -/
theorem claim_C2_summarize_expenses (s e : String) (cat : Option String)
    (db : DB) :
    (∀ g ∈ summarize_expenses s e cat db,
      g.total_amount =
        ((db.expenses.filter (fun r =>
            dateLe s r.date && dateLe r.date e &&
              (r.category == g.category) &&
              (!truthy cat || (r.category == optVal cat)))).map
          (fun r => r.amount)).sum ∧
      g.count =
        (db.expenses.filter (fun r =>
            dateLe s r.date && dateLe r.date e &&
              (r.category == g.category) &&
              (!truthy cat || (r.category == optVal cat)))).length) ∧
    (summarize_expenses s e cat db).Pairwise
      (fun a b => b.total_amount ≤ a.total_amount) := by
  constructor
  · intro g hg
    simp only [summarize_expenses] at hg
    have hg2 := (List.perm_insertionSort expGroupOrd _).mem_iff.mp hg
    rcases List.mem_map.mp hg2 with ⟨c, hc, rfl⟩
    dsimp only
    rw [← expFilter_group s e cat c db]
    exact ⟨rfl, rfl⟩
  · exact List.sorted_insertionSort expGroupOrd _

/-- C2 witness: a single inserted expense yields the one-group summary, and
the claim theorem evaluates on it. -/
theorem claim_C2_witness :
    (⟨"Food", 5, 1⟩ : ExpenseGroup).total_amount =
      ((((add_expense "2024-01-01" 5 "Food" "" "" initState).2).expenses.filter
          (fun r =>
            dateLe "2024-01-01" r.date && dateLe r.date "2024-01-01" &&
              (r.category == (⟨"Food", 5, 1⟩ : ExpenseGroup).category) &&
              (!truthy none || (r.category == optVal none)))).map
        (fun r => r.amount)).sum ∧
    (⟨"Food", 5, 1⟩ : ExpenseGroup).count =
      (((add_expense "2024-01-01" 5 "Food" "" "" initState).2).expenses.filter
        (fun r =>
          dateLe "2024-01-01" r.date && dateLe r.date "2024-01-01" &&
            (r.category == (⟨"Food", 5, 1⟩ : ExpenseGroup).category) &&
            (!truthy none || (r.category == optVal none)))).length :=
  (claim_C2_summarize_expenses "2024-01-01" "2024-01-01" none
      (add_expense "2024-01-01" 5 "Food" "" "" initState).2).1
    ⟨"Food", 5, 1⟩
    (by simp [summarize_expenses, add_expense, initState, initDb, emptyDB,
      expFilter, dateLe, lexLt, truthy, List.insertionSort,
      List.orderedInsert])

/-- The sum of `total_minutes` over the final `summarize_time` output equals
the internal `total_all` computed over the aggregation stage (the
post-processing loop preserves `total_minutes`). -/
theorem summarize_time_total_minutes (s e : String) (act : Option String)
    (db : DB) :
    ((summarize_time s e act db).map (fun r => r.total_minutes)).sum =
      ((summarize_time_groups s e act db).map
        (fun r => r.total_minutes)).sum := by
  simp only [summarize_time, List.map_map]
  rfl

/-- Evaluation of `summarize_time` on the spec's two-entry example state. -/
theorem summarize_time_exDB :
    summarize_time "2024-01-01" "2024-01-01" none exDB =
      [⟨"Work", 180, 1, 180, 3, 3, 75⟩, ⟨"Study", 60, 1, 60, 1, 1, 25⟩] := by
  simp [exDB, summarize_time, summarize_time_groups, add_time_entry,
    initState, initDb, emptyDB, timeFilter, dateLe, lexLt, truthy,
    List.insertionSort, List.orderedInsert, timeAggOrd, round1, round2,
    round_eq]
  norm_num

/-- C1 amended: each `summarize_time` group's `percentage` equals
`round(total_minutes / total_all * 100, 1)` whenever the sum `total_all` of
`total_minutes` over all returned groups is positive, and is `0` whenever
that sum is zero **or negative** (the code tests `total_all > 0`, not
`total_all != 0`); on the spec's example the result is Work
{total_minutes 180, percentage 75.0} then Study {total_minutes 60,
percentage 25.0}. -/
theorem claim_C1_summarize_time_percentage (s e : String)
    (act : Option String) (db : DB) :
    (∀ g ∈ summarize_time s e act db,
      g.percentage =
        if ((summarize_time s e act db).map
            (fun r => r.total_minutes)).sum > 0 then
          round1 ((g.total_minutes : ℚ) /
            (((((summarize_time s e act db).map
                (fun r => r.total_minutes)).sum : ℤ) : ℚ)) * 100)
        else 0) ∧
    (summarize_time "2024-01-01" "2024-01-01" none exDB).map
        (fun g => (g.activity, g.total_minutes, g.percentage)) =
      [("Work", 180, (75 : ℚ)), ("Study", 60, (25 : ℚ))] := by
  constructor
  · intro g hg
    rw [summarize_time_total_minutes]
    simp only [summarize_time] at hg
    rcases List.mem_map.mp hg with ⟨r, hr, rfl⟩
    rfl
  · rw [summarize_time_exDB]
    rfl

/-- C1 counterexample: with a stored negative duration the overall sum is
nonzero, yet the code returns `percentage = 0` instead of the claimed
rounded ratio (which would be 100 here), because it tests `total_all > 0`
rather than `total_all != 0`. -/
theorem claim_C1_counterexample :
    ((summarize_time "2024-01-01" "2024-01-01" none negDB).map
        (fun g => g.total_minutes)).sum ≠ 0 ∧
    ∃ g ∈ summarize_time "2024-01-01" "2024-01-01" none negDB,
      g.percentage ≠
        round1 ((g.total_minutes : ℚ) /
          ((((summarize_time "2024-01-01" "2024-01-01" none negDB).map
              (fun g => g.total_minutes)).sum : ℤ) : ℚ) * 100) := by
  have hres : summarize_time "2024-01-01" "2024-01-01" none negDB =
      [⟨"Study", -60, 1, -60, -1, -1, 0⟩] := by
    simp [negDB, summarize_time, summarize_time_groups, add_time_entry,
      initState, initDb, emptyDB, timeFilter, dateLe, lexLt, truthy,
      List.insertionSort, List.orderedInsert, timeAggOrd, round1, round2,
      round_eq]
    norm_num
  refine ⟨by rw [hres]; norm_num, ⟨"Study", -60, 1, -60, -1, -1, 0⟩,
    by rw [hres]; exact List.mem_singleton_self _, ?_⟩
  rw [hres]
  norm_num [round1, round_eq]

/-- C1 witness: the amended percentage law evaluated at the Work group of
the example state. -/
theorem claim_C1_witness :
    ((⟨"Work", 180, 1, 180, 3, 3, 75⟩ : TimeGroup) ∈
      summarize_time "2024-01-01" "2024-01-01" none exDB) ∧
    (⟨"Work", 180, 1, 180, 3, 3, 75⟩ : TimeGroup).percentage =
      (if ((summarize_time "2024-01-01" "2024-01-01" none exDB).map
          (fun r => r.total_minutes)).sum > 0 then
        round1
          (((⟨"Work", 180, 1, 180, 3, 3, 75⟩ : TimeGroup).total_minutes : ℚ) /
            ((((summarize_time "2024-01-01" "2024-01-01" none exDB).map
                (fun r => r.total_minutes)).sum : ℤ) : ℚ) * 100)
      else 0) :=
  have hm : (⟨"Work", 180, 1, 180, 3, 3, 75⟩ : TimeGroup) ∈
      summarize_time "2024-01-01" "2024-01-01" none exDB := by
    rw [summarize_time_exDB]
    simp
  ⟨hm, (claim_C1_summarize_time_percentage "2024-01-01" "2024-01-01" none
    exDB).1 ⟨"Work", 180, 1, 180, 3, 3, 75⟩ hm⟩
